import Mathlib

/-!
Verification of the session layer of the cobra client library
(cobra/mit/session.py) against its natural-language specification.

Strings are modelled as List Char; the Python functions of session.py are
translated into executable Lean definitions, and the specification claims
are settled as theorems about those definitions.  Source line numbers refer
to src/cobra/mit/session.py.
-/

/-! ## URI canonicalization (CertSession._generateSignature, lines 434-436) -/

/-- Python str.replace applied to the two-character pattern of two slashes
with the one-character replacement of a single slash (line 436):
a single left-to-right scan replacing non-overlapping occurrences. -/
def replaceDS : List Char → List Char
  | [] => []
  | [c] => [c]
  | c1 :: c2 :: rest =>
    if c1 = '/' ∧ c2 = '/' then '/' :: replaceDS rest
    else c1 :: replaceDS (c2 :: rest)

/-- Lines 434-435: if uri.endswith the question mark, drop the last
character (Python endswith is false on the empty string, matching the
getLast? test here). -/
def stripTrailingQ (s : List Char) : List Char :=
  if s.getLast? = some '?' then s.dropLast else s

/-- Lines 434-436: the full URI normalization performed before signing:
strip one trailing question mark, then one replace pass on double slashes. -/
def normalizeUri (uri : List Char) : List Char :=
  replaceDS (stripTrailingQ uri)

/-- Scanning predicate: the list contains two adjacent slashes. -/
def hasDS : List Char → Bool
  | [] => false
  | c :: rest => if c = '/' ∧ rest.head? = some '/' then true else hasDS rest

/-- Scanning predicate: the list contains three adjacent slashes. -/
def hasTS : List Char → Bool
  | [] => false
  | c :: rest =>
    if c = '/' ∧ rest.head? = some '/' ∧ rest.tail.head? = some '/' then true
    else hasTS rest

/-! ## Canonical payload (lines 438-442 in-process branch, 456-460
external-tool branch) -/

/-- Lines 439-442: the payload signed by the in-process branch, built from
the normalized URI of lines 434-436. -/
def generateSignaturePayload (uri : List Char) (data : Option (List Char)) : List Char :=
  match data with
  | none => "GET".toList ++ normalizeUri uri
  | some d => "POST".toList ++ normalizeUri uri ++ d

/-- Lines 456-460: the fileData written to the payload file by the
external-tool branch, built from the same normalized URI of lines 434-436
(normalization happens once, before the branch on inlineSignature). -/
def generateSignatureFileData (uri : List Char) (data : Option (List Char)) : List Char :=
  match data with
  | none => "GET".toList ++ normalizeUri uri
  | some d => "POST".toList ++ normalizeUri uri ++ d

/-! ## Cookie header value (lines 489-493) -/

/-- Modelled from the spec: the header-value format the specification
prescribes, for comparison with the value the code produces
(section 4.3 step 4 of the spec). -/
def specCookieValue (signature certDn : List Char) : List Char :=
  "APIC-Request-Signature=".toList ++ signature ++
    "; APIC-Certificate-Algorithm=v1.0; APIC-Certificate-Fingerprint=fingerprint; APIC-Certificate-DN=".toList ++
    certDn

/-- Lines 489-493: cookieFmt with the two interpolations applied.  The
first piece of cookieFmt carries two leading space characters. -/
def generateSignatureCookie (signature certDn : List Char) : List Char :=
  "  APIC-Request-Signature=".toList ++ signature ++
    "; APIC-Certificate-Algorithm=v1.0; APIC-Certificate-Fingerprint=fingerprint; APIC-Certificate-DN=".toList ++
    certDn

/-! ## Signing-backend selection (lines 18-22 and 424-429) -/

/-- Lines 424-429 and 438: the effect of one _generateSignature call on the
process-wide inlineSignature global.  Input: the forceManual argument and
the value of the global before the call.  Output: first component is the
value tested at line 438 (true means the in-process branch runs), second
component is the value of the global after the call (the assignment at
line 429 is never undone). -/
def generateSignatureSelection (forceManual : Bool) (inlineSig : Bool) : Bool × Bool :=
  let inlineSig' := if forceManual then false else inlineSig
  (inlineSig', inlineSig')

/-! ## External command runner (CertSession.runCmd, lines 366-389) -/

/-- Outcome of the subprocess collaborator: exit status and captured
streams, as delivered by Popen.communicate at line 384. -/
structure ProcResult where
  returncode : Int
  stdout : List Char
  stderr : List Char
  deriving DecidableEq

/-- Payload of subprocess.CalledProcessError as raised at lines 386-388:
return code, the space-joined command, and the captured standard output. -/
structure CalledProcessErrorData where
  returncode : Int
  cmd : List Char
  output : List Char
  deriving DecidableEq

/-- Lines 381-389: runCmd parameterized by the process outcome.  Non-zero
exit raises CalledProcessError with the return code, the space-joined
command and the captured output; zero exit returns the captured output. -/
def runCmd (cmd : List (List Char)) (proc : ProcResult) :
    Except CalledProcessErrorData (List Char) :=
  if proc.returncode ≠ 0 then
    .error ⟨proc.returncode, List.intercalate " ".toList cmd, proc.stdout⟩
  else
    .ok proc.stdout

/-! ## AbstractSession construction (lines 52-98) -/

/-- Line 52: XML_FORMAT constant. -/
def XML_FORMAT : Nat := 0

/-- Line 52: JSON_FORMAT constant. -/
def JSON_FORMAT : Nat := 1

/-- Fields stored by AbstractSession.__init__ (lines 72-78). -/
structure AbstractSession where
  secure : Bool
  timeout : Int
  controllerUrl : List Char
  format : Nat
  deriving DecidableEq

/-- The exception raised at lines 69-71.  The code raises
NotImplementedError (the spec calls this construction failure ConfigError);
its message interpolates a Python set and is not modelled. -/
inductive SessionInitError where
  | notImplementedError
  deriving DecidableEq

/-- Lines 69-78: membership check on the requestFormat string, then field
assignment; the format code is 0 for xml and (the only other case the
guard admits) 1 for json. -/
def abstractSessionInit (controllerUrl : List Char) (secure : Bool) (timeout : Int)
    (requestFormat : List Char) : Except SessionInitError AbstractSession :=
  if ¬ (requestFormat = "xml".toList ∨ requestFormat = "json".toList) then
    .error .notImplementedError
  else
    .ok { secure := secure, timeout := timeout, controllerUrl := controllerUrl,
          format := if requestFormat = "xml".toList then XML_FORMAT else JSON_FORMAT }

/-- Lines 96-98: the formatStr property. -/
def formatStr (s : AbstractSession) : List Char :=
  if s.format = XML_FORMAT then "xml".toList else "json".toList

/-! ## LoginSession state, headers and response parsing (lines 199-282) -/

/-- The mutable token fields of LoginSession (lines 203-207). -/
structure LoginState where
  cookie : Option (List Char)
  challenge : Option (List Char)
  version : Option (List Char)
  refreshTime : Option Int
  refreshTimeoutSeconds : Option Int
  deriving DecidableEq

/-- Lines 203-207: all token fields are None after construction. -/
def loginSessionInitState : LoginState :=
  { cookie := none, challenge := none, version := none,
    refreshTime := none, refreshTimeoutSeconds := none }

/-- Python percent-s interpolation of an optional string: None prints as
the four characters None. -/
def pyStrOfOption : Option (List Char) → List Char
  | none => "None".toList
  | some s => s

/-- Python truthiness of an optional string: None and the empty string are
falsy. -/
def pyTruthy : Option (List Char) → Bool
  | none => false
  | some s => !s.isEmpty

/-- Lines 245-259: LoginSession.getHeaders.  The headers dict gets the
Cookie entry first and, only when the challenge is truthy, the
APIC-challenge entry second (insertion order preserved). -/
def loginGetHeaders (st : LoginState) : List (List Char × List Char) :=
  let headers := [("Cookie".toList, "APIC-cookie=".toList ++ pyStrOfOption st.cookie)]
  if pyTruthy st.challenge then
    headers ++ [("APIC-challenge".toList, st.challenge.getD [])]
  else
    headers

/-- Decimal digit test for the int builtin model. -/
def isPyDigit (c : Char) : Bool := '0' ≤ c && c ≤ '9'

/-- ASCII whitespace stripped by the int builtin (unicode whitespace is not
modelled). -/
def isPySpace (c : Char) : Bool :=
  c = ' ' || c = '\t' || c = '\n' || c = '\r' || c = '\x0b' || c = '\x0c'

/-- Value of a list of decimal digits. -/
def digitsToNat (ds : List Char) : Nat :=
  ds.foldl (fun a c => a * 10 + (c.toNat - '0'.toNat)) 0

/-- A nonempty all-digit list parses to its value; anything else fails. -/
def pyIntDigits (ds : List Char) : Option Nat :=
  if ds.isEmpty then none
  else if ds.all isPyDigit then some (digitsToNat ds) else none

/-- Model of the Python int builtin applied to a string (line 279-280):
strip surrounding whitespace, accept an optional sign followed by decimal
digits, otherwise raise ValueError (returned here as none).  Underscore
digit grouping and unicode digits are not modelled. -/
def pyInt (s : List Char) : Option Int :=
  let t := ((s.dropWhile isPySpace).reverse.dropWhile isPySpace).reverse
  match t with
  | [] => none
  | c :: ds =>
    if c = '+' then (pyIntDigits ds).map (fun n => (n : Int))
    else if c = '-' then (pyIntDigits ds).map (fun n => -(n : Int))
    else (pyIntDigits (c :: ds)).map (fun n => (n : Int))

/-- Attributes of an aaaLogin record (line 273-276); the spec's inbound
wire-format contract guarantees the three attribute fields are present, so
they are carried by construction. -/
structure AaaLoginAttributes where
  token : List Char
  refreshTimeoutSeconds : List Char
  version : List Char
  deriving DecidableEq

/-- Attributes of an error record (lines 268-271). -/
structure LoginErrorAttributes where
  text : List Char
  code : List Char
  deriving DecidableEq

/-- One record of the imdata array: the membership tests at lines 268 and
273 are modelled by optional fields; when both are present the code takes
the error branch first. -/
structure ImdataRecord where
  error : Option LoginErrorAttributes
  aaaLogin : Option AaaLoginAttributes
  deriving DecidableEq

/-- A decoded login response: the optional imdata envelope (dict.get at
line 263) and the raw body text used in error messages. -/
structure LoginResponse where
  imdata : Option (List ImdataRecord)
  text : List Char
  deriving DecidableEq

/-- The code of a LoginError: the synthetic bad-response code is the int 0
(lines 265, 282), a server-supplied code is the JSON string as received
(line 271). -/
inductive ErrValue where
  | intVal (n : Int)
  | strVal (s : List Char)
  deriving DecidableEq

/-- Exceptions _parseResponse can raise: LoginError (lines 265, 272, 282)
and the ValueError the int builtin raises at line 279 on a non-numeric
refreshTimeoutSeconds string. -/
inductive PyError where
  | loginError (code : ErrValue) (reason : List Char)
  | valueError
  deriving DecidableEq

/-- The reason string built at lines 265 and 282 (capital B, capital R). -/
def badResponseReason (rawText : List Char) : List Char :=
  "Bad Response: ".toList ++ rawText

/-- Lines 261-282: LoginSession._parseResponse.  Returns the session state
after the call together with the exception raised, if any.  The now
argument stands for math.trunc of time.time at line 279.  Assignment order
matters: _cookie (line 277) and _version (line 278) are set before the int
conversion at line 279 can raise, so a non-numeric refreshTimeoutSeconds
leaves the state partially updated. -/
def parseResponse (rsp : LoginResponse) (now : Nat) (st : LoginState) :
    LoginState × Option PyError :=
  match rsp.imdata with
  | none => (st, some (.loginError (.intVal 0) (badResponseReason rsp.text)))
  | some [] => (st, some (.loginError (.intVal 0) (badResponseReason rsp.text)))
  | some (firstRecord :: _) =>
    match firstRecord.error with
    | some errAttrs => (st, some (.loginError (.strVal errAttrs.code) errAttrs.text))
    | none =>
      match firstRecord.aaaLogin with
      | some a =>
        let st1 := { st with cookie := some a.token }
        let st2 := { st1 with version := some a.version }
        match pyInt a.refreshTimeoutSeconds with
        | none => (st2, some .valueError)
        | some n =>
          let st3 := { st2 with refreshTime := some (n + (now : Int)) }
          let st4 := { st3 with refreshTimeoutSeconds := some n }
          (st4, none)
      | none => (st, some (.loginError (.intVal 0) (badResponseReason rsp.text)))

/-- The error-response scenario from the spec's testable properties. -/
def rspErrScenario : LoginResponse :=
  { imdata := some [{ error := some { text := "bad creds".toList, code := "401".toList },
                      aaaLogin := none }],
    text := "raw".toList }

/-- The successful-login scenario from the spec's testable properties. -/
def rspLoginScenario : LoginResponse :=
  { imdata := some [{ error := none,
                      aaaLogin := some { token := "abc".toList,
                                         refreshTimeoutSeconds := "600".toList,
                                         version := "5.0".toList } }],
    text := "raw".toList }

/-! ## Lemmas about the replace pass -/

/-- Dropping to the last element of a cons of a nonempty list. -/
theorem lastCons (a x : Char) (xs : List Char) :
    (a :: x :: xs).getLast? = (x :: xs).getLast? := by
  simp [List.getLast?]

/-- The replace pass never turns a nonempty list into the empty list. -/
theorem replaceDS_ne_nil : ∀ {l : List Char}, l ≠ [] → replaceDS l ≠ []
  | [], h => absurd rfl h
  | [c], _ => by simp [replaceDS]
  | c1 :: c2 :: rest, _ => by
    simp only [replaceDS]
    split <;> simp

/-- The replace pass preserves the first character. -/
theorem replaceDS_head? : ∀ (l : List Char), (replaceDS l).head? = l.head?
  | [] => rfl
  | [c] => rfl
  | c1 :: c2 :: rest => by
    by_cases h : c1 = '/' ∧ c2 = '/'
    · obtain ⟨h1, h2⟩ := h
      subst h1; subst h2
      simp [replaceDS]
    · simp [replaceDS, h]

/-- The replace pass preserves the last character. -/
theorem replaceDS_getLast? : ∀ (l : List Char), (replaceDS l).getLast? = l.getLast?
  | [] => rfl
  | [c] => rfl
  | c1 :: c2 :: rest => by
    by_cases h : c1 = '/' ∧ c2 = '/'
    · obtain ⟨h1, h2⟩ := h
      subst h1; subst h2
      rw [show replaceDS ('/' :: '/' :: rest) = '/' :: replaceDS rest from by
        simp [replaceDS]]
      cases rest with
      | nil => rfl
      | cons r rs =>
        obtain ⟨x, xs, hx⟩ := List.exists_cons_of_ne_nil
          (replaceDS_ne_nil (l := r :: rs) (by simp))
        rw [hx, lastCons, ← hx, replaceDS_getLast? (r :: rs), lastCons, lastCons]
    · rw [show replaceDS (c1 :: c2 :: rest) = c1 :: replaceDS (c2 :: rest) from by
        simp [replaceDS, h]]
      obtain ⟨x, xs, hx⟩ := List.exists_cons_of_ne_nil
        (replaceDS_ne_nil (l := c2 :: rest) (by simp))
      rw [hx, lastCons, ← hx, replaceDS_getLast? (c2 :: rest), lastCons]

/-- A double-slash-free tail of a double-slash-free cons. -/
theorem hasDS_tail {c : Char} {l : List Char} (h : hasDS (c :: l) = false) :
    hasDS l = false := by
  by_cases hc : c = '/' ∧ l.head? = some '/'
  · rw [show hasDS (c :: l) = true from by simp only [hasDS, if_pos hc]] at h
    cases h
  · rwa [show hasDS (c :: l) = hasDS l from by simp only [hasDS, if_neg hc]] at h

/-- A triple-slash-free tail of a triple-slash-free cons. -/
theorem hasTS_tail {c : Char} {l : List Char} (h : hasTS (c :: l) = false) :
    hasTS l = false := by
  by_cases hc : c = '/' ∧ l.head? = some '/' ∧ l.tail.head? = some '/'
  · rw [show hasTS (c :: l) = true from by simp only [hasTS, if_pos hc]] at h
    cases h
  · rwa [show hasTS (c :: l) = hasTS l from by simp only [hasTS, if_neg hc]] at h

/-- On a double-slash-free list the replace pass is the identity. -/
theorem replaceDS_of_hasDS_false : ∀ {l : List Char}, hasDS l = false → replaceDS l = l
  | [], _ => rfl
  | [c], _ => rfl
  | c1 :: c2 :: rest, h => by
    have hcond : ¬ (c1 = '/' ∧ c2 = '/') := by
      intro ⟨h1, h2⟩
      simp [hasDS, h1, h2] at h
    rw [show replaceDS (c1 :: c2 :: rest) = c1 :: replaceDS (c2 :: rest) from by
      simp [replaceDS, hcond]]
    rw [replaceDS_of_hasDS_false (hasDS_tail h)]

/-- On a triple-slash-free input the replace pass leaves no double slash. -/
theorem hasDS_replaceDS : ∀ {l : List Char}, hasTS l = false → hasDS (replaceDS l) = false
  | [], _ => rfl
  | [c], _ => by simp [replaceDS, hasDS]
  | c1 :: c2 :: rest, h => by
    by_cases hc : c1 = '/' ∧ c2 = '/'
    · obtain ⟨h1, h2⟩ := hc
      subst h1; subst h2
      rw [show replaceDS ('/' :: '/' :: rest) = '/' :: replaceDS rest from by
        simp [replaceDS]]
      have hrest : rest.head? ≠ some '/' := by
        intro hh
        simp [hasTS, hh] at h
      have htl : hasTS rest = false := hasTS_tail (hasTS_tail h)
      have := hasDS_replaceDS htl
      simp only [hasDS]
      rw [if_neg, this]
      intro ⟨_, hh⟩
      rw [replaceDS_head?] at hh
      exact hrest hh
    · rw [show replaceDS (c1 :: c2 :: rest) = c1 :: replaceDS (c2 :: rest) from by
        simp [replaceDS, hc]]
      have htl : hasTS (c2 :: rest) = false := hasTS_tail h
      have := hasDS_replaceDS htl
      simp only [hasDS]
      rw [if_neg, this]
      intro ⟨h1, hh⟩
      rw [replaceDS_head?] at hh
      simp at hh
      exact hc ⟨h1, hh⟩

/-- Dropping the last character cannot create a triple slash. -/
theorem hasTS_dropLast : ∀ {l : List Char}, hasTS l = false → hasTS l.dropLast = false
  | [], _ => rfl
  | [c], _ => rfl
  | c1 :: c2 :: rest, h => by
    have htl : hasTS ((c2 :: rest).dropLast) = false :=
      hasTS_dropLast (hasTS_tail h)
    rw [show (c1 :: c2 :: rest).dropLast = c1 :: (c2 :: rest).dropLast from rfl]
    by_cases hc : c1 = '/' ∧ ((c2 :: rest).dropLast).head? = some '/' ∧
        ((c2 :: rest).dropLast).tail.head? = some '/'
    · exfalso
      cases rest with
      | nil => simp at hc
      | cons r rs =>
        rw [show (c2 :: r :: rs).dropLast = c2 :: (r :: rs).dropLast from rfl] at hc
        obtain ⟨h1, h2, h3⟩ := hc
        simp at h2
        cases rs with
        | nil => simp at h3
        | cons r2 rs2 =>
          rw [show (r :: r2 :: rs2).dropLast = r :: (r2 :: rs2).dropLast from rfl] at h3
          simp at h3
          rw [show hasTS (c1 :: c2 :: r :: r2 :: rs2) = true from by
            simp [hasTS, h1, h2, h3]] at h
          cases h
    · rwa [show hasTS (c1 :: (c2 :: rest).dropLast) = hasTS ((c2 :: rest).dropLast)
        from by simp only [hasTS, if_neg hc]]

/-- Extending a list with a double slash keeps it under cons. -/
theorem hasDS_cons_of {c : Char} {l : List Char} (h : hasDS l = true) :
    hasDS (c :: l) = true := by
  by_cases hc : c = '/' ∧ l.head? = some '/'
  · simp only [hasDS, if_pos hc]
  · simp only [hasDS, if_neg hc]
    exact h

/-- Extending a list with a triple slash keeps it under cons. -/
theorem hasTS_cons_of {c : Char} {l : List Char} (h : hasTS l = true) :
    hasTS (c :: l) = true := by
  by_cases hc : c = '/' ∧ l.head? = some '/' ∧ l.tail.head? = some '/'
  · simp only [hasTS, if_pos hc]
  · simp only [hasTS, if_neg hc]
    exact h

/-- The double-slash scan detects exactly the lists containing two adjacent
slashes. -/
theorem hasDS_iff : ∀ (l : List Char),
    hasDS l = true ↔ ∃ a b, l = a ++ '/' :: '/' :: b
  | [] => by
    simp [hasDS]
  | c :: rest => by
    constructor
    · intro h
      by_cases hc : c = '/' ∧ rest.head? = some '/'
      · obtain ⟨h1, h2⟩ := hc
        cases rest with
        | nil => cases h2
        | cons r rs =>
          simp at h2
          exact ⟨[], rs, by simp [h1, h2]⟩
      · rw [show hasDS (c :: rest) = hasDS rest from by simp only [hasDS, if_neg hc]] at h
        obtain ⟨a, b, hab⟩ := (hasDS_iff rest).mp h
        exact ⟨c :: a, b, by simp [hab]⟩
    · rintro ⟨a, b, hab⟩
      cases a with
      | nil =>
        simp at hab
        obtain ⟨h1, h2⟩ := hab
        subst h1
        rw [h2]
        simp [hasDS]
      | cons x a' =>
        simp at hab
        obtain ⟨h1, h2⟩ := hab
        exact hasDS_cons_of ((hasDS_iff rest).mpr ⟨a', b, h2⟩)

/-- The triple-slash scan detects exactly the lists containing three
adjacent slashes. -/
theorem hasTS_iff : ∀ (l : List Char),
    hasTS l = true ↔ ∃ a b, l = a ++ '/' :: '/' :: '/' :: b
  | [] => by
    simp [hasTS]
  | c :: rest => by
    constructor
    · intro h
      by_cases hc : c = '/' ∧ rest.head? = some '/' ∧ rest.tail.head? = some '/'
      · obtain ⟨h1, h2, h3⟩ := hc
        cases rest with
        | nil => cases h2
        | cons r rs =>
          simp at h2
          cases rs with
          | nil => cases h3
          | cons r2 rs2 =>
            simp at h3
            exact ⟨[], rs2, by simp [h1, h2, h3]⟩
      · rw [show hasTS (c :: rest) = hasTS rest from by simp only [hasTS, if_neg hc]] at h
        obtain ⟨a, b, hab⟩ := (hasTS_iff rest).mp h
        exact ⟨c :: a, b, by simp [hab]⟩
    · rintro ⟨a, b, hab⟩
      cases a with
      | nil =>
        simp at hab
        obtain ⟨h1, h2⟩ := hab
        subst h1
        rw [h2]
        simp [hasTS]
      | cons x a' =>
        simp at hab
        obtain ⟨h1, h2⟩ := hab
        exact hasTS_cons_of ((hasTS_iff rest).mpr ⟨a', b, h2⟩)

/-- Stripping a trailing question mark cannot create a triple slash. -/
theorem hasTS_stripTrailingQ {s : List Char} (h : hasTS s = false) :
    hasTS (stripTrailingQ s) = false := by
  unfold stripTrailingQ
  split
  · exact hasTS_dropLast h
  · exact h

/-- Unless the input ends in two question marks, the normalized URI does
not end in a question mark. -/
theorem normalizeUri_last_ne (s : List Char)
    (hq : ¬ (s.getLast? = some '?' ∧ s.dropLast.getLast? = some '?')) :
    (normalizeUri s).getLast? ≠ some '?' := by
  unfold normalizeUri stripTrailingQ
  by_cases h : s.getLast? = some '?'
  · rw [if_pos h, replaceDS_getLast?]
    intro hc
    exact hq ⟨h, hc⟩
  · rw [if_neg h, replaceDS_getLast?]
    exact h

/-! ## Claim C1 -/

/-- C1 counterexample: on the URI of three slashes the normalized URI still
contains two adjacent slashes, and normalizing twice differs from
normalizing once, so the claim as stated is false. -/
theorem c1_counterexample :
    (∃ a b, normalizeUri ['/', '/', '/'] = a ++ '/' :: '/' :: b) ∧
    normalizeUri (normalizeUri ['/', '/', '/']) ≠ normalizeUri ['/', '/', '/'] :=
  ⟨⟨[], [], by decide⟩, by decide⟩

/-- C1 (amended): for every URI containing no three adjacent slashes and
not ending in two question marks, the normalized URI contains no two
adjacent slashes and normalization is idempotent. -/
theorem c1_amended (s : List Char)
    (h3 : ¬ ∃ a b, s = a ++ '/' :: '/' :: '/' :: b)
    (hq : ¬ (s.getLast? = some '?' ∧ s.dropLast.getLast? = some '?')) :
    (¬ ∃ a b, normalizeUri s = a ++ '/' :: '/' :: b) ∧
    normalizeUri (normalizeUri s) = normalizeUri s := by
  have hTS : hasTS s = false := by
    cases h : hasTS s
    · rfl
    · exact absurd ((hasTS_iff s).mp h) h3
  have hDS : hasDS (normalizeUri s) = false :=
    hasDS_replaceDS (hasTS_stripTrailingQ hTS)
  constructor
  · intro hex
    have := (hasDS_iff _).mpr hex
    rw [hDS] at this
    cases this
  · have hlast : (normalizeUri s).getLast? ≠ some '?' := normalizeUri_last_ne s hq
    conv_lhs => rw [normalizeUri, stripTrailingQ, if_neg hlast]
    exact replaceDS_of_hasDS_false hDS

/-- C1 witness: the amended claim applied to a concrete URI with a
collapsible double slash. -/
theorem c1_amended_witness :
    (¬ ∃ a b, "/a//b".toList = a ++ '/' :: '/' :: '/' :: b) ∧
    (¬ ∃ a b, normalizeUri "/a//b".toList = a ++ '/' :: '/' :: b) ∧
    normalizeUri (normalizeUri "/a//b".toList) = normalizeUri "/a//b".toList := by
  have h3 : ¬ ∃ a b, "/a//b".toList = a ++ '/' :: '/' :: '/' :: b := by
    intro hex
    exact absurd ((hasTS_iff _).mpr hex) (by decide)
  exact ⟨h3, c1_amended "/a//b".toList h3 (by decide)⟩

/-! ## Claim C2 -/

/-- C2 counterexample: a URI ending in two question marks still ends in a
question mark after normalization, so the claim as stated (which covers
URIs ending in more than one question mark) is false. -/
theorem c2_counterexample :
    ("/api??".toList).getLast? = some '?' ∧
    (normalizeUri "/api??".toList).getLast? = some '?' := by
  decide

/-- C2 (amended): for every URI whose last character is a question mark and
whose second-to-last character is not, the normalized URI part of the
canonical payload does not end in a question mark (exactly one trailing
question mark is stripped). -/
theorem c2_amended (s : List Char) (h1 : s.getLast? = some '?')
    (h2 : s.dropLast.getLast? ≠ some '?') :
    (normalizeUri s).getLast? ≠ some '?' :=
  normalizeUri_last_ne s (fun hp => h2 hp.2)

/-- C2 witness: the amended claim applied to the spec's example URI. -/
theorem c2_amended_witness :
    ("/api/node?".toList).getLast? = some '?' ∧
    (normalizeUri "/api/node?".toList).getLast? ≠ some '?' :=
  ⟨by decide, c2_amended "/api/node?".toList (by decide) (by decide)⟩

/-! ## Claim C3 -/

/-- C3: the canonical payload is GET plus the normalized URI without a
body and POST plus the normalized URI plus the body with one; the
external-tool branch writes the identical payload; and the spec scenario
for /api/node? with no body yields the literal GET/api/node. -/
theorem c3_payload (uri : List Char) :
    generateSignaturePayload uri none = "GET".toList ++ normalizeUri uri ∧
    (∀ d, generateSignaturePayload uri (some d) = "POST".toList ++ normalizeUri uri ++ d) ∧
    (∀ d, generateSignatureFileData uri d = generateSignaturePayload uri d) ∧
    generateSignaturePayload "/api/node?".toList none = "GET/api/node".toList :=
  ⟨rfl, fun _ => rfl, fun d => by cases d <;> rfl, by decide⟩

/-! ## Claim C4 -/

/-- C4 counterexample: the cookie value the code produces differs from the
format the claim states, because the code's format string begins with two
space characters. -/
theorem c4_counterexample :
    generateSignatureCookie "s".toList "d".toList ≠ specCookieValue "s".toList "d".toList := by
  decide

/-- C4 (amended): for every signature and certificate DN the cookie value
is exactly two leading spaces followed by the fixed-format string of the
claim; no other characters appear. -/
theorem c4_amended (s d : List Char) :
    generateSignatureCookie s d = ' ' :: ' ' :: specCookieValue s d := rfl

/-! ## Claim C5 -/

/-- C5 counterexample: starting from the in-process backend selected at
process start, a call with forceManual leaves the process-wide flag false,
and the next call without the override therefore uses the external-tool
path instead of the backend selected at process start. -/
theorem c5_counterexample :
    (generateSignatureSelection true true).2 = false ∧
    (generateSignatureSelection false (generateSignatureSelection true true).2).1 = false := by
  decide

/-- C5 (amended): a call without forceManual leaves the process-wide
selection unchanged and uses it, while a call with forceManual permanently
switches the process-wide selection to the external-tool backend; the
override is sticky, not scoped to the single call. -/
theorem c5_amended (g : Bool) :
    generateSignatureSelection false g = (g, g) ∧
    generateSignatureSelection true g = (false, false) := by
  cases g <;> exact ⟨rfl, rfl⟩

/-! ## Claim C6 -/

/-- C6 counterexample: the synthetic reason string is capitalized Bad
Response, not the claimed lowercase form; and a success record whose
refresh-timeout string is non-numeric makes the call fail while mutating
the token fields, contradicting the claimed no-partial-mutation. -/
theorem c6_counterexample :
    (parseResponse ⟨none, "x".toList⟩ 0 loginSessionInitState).2 =
      some (.loginError (.intVal 0) "Bad Response: x".toList) ∧
    "Bad Response: x".toList ≠ "bad response: x".toList ∧
    (parseResponse ⟨some [⟨none, some ⟨"t".toList, "abc".toList, "v".toList⟩⟩],
        "r".toList⟩ 0 loginSessionInitState).2 ≠ none ∧
    (parseResponse ⟨some [⟨none, some ⟨"t".toList, "abc".toList, "v".toList⟩⟩],
        "r".toList⟩ 0 loginSessionInitState).1 ≠ loginSessionInitState := by
  decide

/-- C6 (amended): parseResponse raises LoginError in exactly the three
claimed cases, with reason prefix Bad Response (capitalized) and code 0 in
the synthetic cases and the server-supplied code and text in the error
case, and every LoginError leaves the state unchanged; additionally a
success record whose refresh-timeout string does not parse as an integer
raises ValueError after setting the cookie and version fields, so that
failing call does mutate state. -/
theorem c6_amended (rsp : LoginResponse) (now : Nat) (st : LoginState) :
    (rsp.imdata = none → parseResponse rsp now st =
      (st, some (.loginError (.intVal 0) (badResponseReason rsp.text)))) ∧
    (rsp.imdata = some [] → parseResponse rsp now st =
      (st, some (.loginError (.intVal 0) (badResponseReason rsp.text)))) ∧
    (∀ fr rest e, rsp.imdata = some (fr :: rest) → fr.error = some e →
      parseResponse rsp now st = (st, some (.loginError (.strVal e.code) e.text))) ∧
    (∀ fr rest, rsp.imdata = some (fr :: rest) → fr.error = none →
      fr.aaaLogin = none → parseResponse rsp now st =
        (st, some (.loginError (.intVal 0) (badResponseReason rsp.text)))) ∧
    (∀ fr rest a, rsp.imdata = some (fr :: rest) → fr.error = none →
      fr.aaaLogin = some a → pyInt a.refreshTimeoutSeconds = none →
      parseResponse rsp now st =
        ({ st with cookie := some a.token, version := some a.version },
         some .valueError)) ∧
    (∀ c r, (parseResponse rsp now st).2 = some (.loginError c r) →
      (parseResponse rsp now st).1 = st) := by
  obtain ⟨imdata, text⟩ := rsp
  refine ⟨?_, ?_, ?_, ?_, ?_, ?_⟩
  · rintro rfl
    rfl
  · rintro rfl
    rfl
  · rintro fr rest e rfl he
    simp [parseResponse, he]
  · rintro fr rest rfl he ha
    simp [parseResponse, he, ha]
  · rintro fr rest a rfl he ha hp
    simp [parseResponse, he, ha, hp]
  · intro c r h
    rcases imdata with _ | (_ | ⟨⟨ferr, flogin⟩, rest⟩)
    · rfl
    · rfl
    · rcases ferr with _ | e
      · rcases flogin with _ | a
        · rfl
        · rcases hp : pyInt a.refreshTimeoutSeconds with _ | n
          · simp [parseResponse, hp] at h
          · simp [parseResponse, hp] at h
      · rfl

/-- C6 witness: the amended claim applied to the spec's error-response
scenario, yielding the server-supplied code and text with unchanged
state. -/
theorem c6_amended_witness :
    parseResponse rspErrScenario 0 loginSessionInitState =
      (loginSessionInitState,
       some (.loginError (.strVal "401".toList) "bad creds".toList)) :=
  (c6_amended rspErrScenario 0 loginSessionInitState).2.2.1
    { error := some { text := "bad creds".toList, code := "401".toList },
      aaaLogin := none }
    [] { text := "bad creds".toList, code := "401".toList } rfl rfl

/-! ## Claim C7 -/

/-- C7: every successful parse comes from a first record carrying an
aaaLogin entry with a numeric refresh-timeout string and sets the cookie,
version, refresh time (the parsed integer plus the truncated current time)
and refresh-timeout integer together in that call; and on the spec's
scenario the cookie is abc, the refresh timeout is the integer 600 and the
version is 5.0. -/
theorem c7_loginSuccess :
    (∀ (rsp : LoginResponse) (now : Nat) (st : LoginState),
      (parseResponse rsp now st).2 = none →
      ∃ fr rest a n, rsp.imdata = some (fr :: rest) ∧ fr.error = none ∧
        fr.aaaLogin = some a ∧ pyInt a.refreshTimeoutSeconds = some n ∧
        (parseResponse rsp now st).1 =
          { cookie := some a.token, challenge := st.challenge,
            version := some a.version, refreshTime := some (n + (now : Int)),
            refreshTimeoutSeconds := some n }) ∧
    parseResponse rspLoginScenario 0 loginSessionInitState =
      ({ cookie := some "abc".toList, challenge := none,
         version := some "5.0".toList, refreshTime := some 600,
         refreshTimeoutSeconds := some 600 }, none) := by
  constructor
  · intro rsp now st h
    obtain ⟨imdata, text⟩ := rsp
    rcases imdata with _ | (_ | ⟨⟨ferr, flogin⟩, rest⟩)
    · simp [parseResponse] at h
    · simp [parseResponse] at h
    · rcases ferr with _ | e
      · rcases flogin with _ | a
        · simp [parseResponse] at h
        · rcases hp : pyInt a.refreshTimeoutSeconds with _ | n
          · simp [parseResponse, hp] at h
          · exact ⟨_, rest, a, n, rfl, rfl, rfl, hp, by simp [parseResponse, hp]⟩
      · simp [parseResponse] at h
  · decide

/-- C7 witness: the success characterization applied to the spec's login
scenario. -/
theorem c7_witness :
    (parseResponse rspLoginScenario 0 loginSessionInitState).2 = none ∧
    (∃ fr rest a n, rspLoginScenario.imdata = some (fr :: rest) ∧ fr.error = none ∧
      fr.aaaLogin = some a ∧ pyInt a.refreshTimeoutSeconds = some n ∧
      (parseResponse rspLoginScenario 0 loginSessionInitState).1 =
        { cookie := some a.token, challenge := loginSessionInitState.challenge,
          version := some a.version, refreshTime := some (n + (0 : Int)),
          refreshTimeoutSeconds := some n }) :=
  ⟨by decide, c7_loginSuccess.1 rspLoginScenario 0 loginSessionInitState (by decide)⟩

/-! ## Claim C8 -/

/-- C8: construction with a requestFormat other than xml or json fails with
the construction-time exception and produces no session, while xml and
json succeed and the session's formatStr equals the requestFormat passed
in. -/
theorem c8_requestFormat (url : List Char) (secure : Bool) (timeout : Int)
    (fmt : List Char) :
    (fmt ≠ "xml".toList → fmt ≠ "json".toList →
      abstractSessionInit url secure timeout fmt = .error .notImplementedError) ∧
    (fmt = "xml".toList ∨ fmt = "json".toList →
      ∃ s, abstractSessionInit url secure timeout fmt = .ok s ∧ formatStr s = fmt) := by
  constructor
  · intro h1 h2
    have hc : ¬ (fmt = "xml".toList ∨ fmt = "json".toList) := by
      rintro (h | h)
      · exact h1 h
      · exact h2 h
    unfold abstractSessionInit
    rw [if_pos hc]
  · rintro (rfl | rfl)
    · refine ⟨⟨secure, timeout, url, XML_FORMAT⟩, ?_, ?_⟩
      · unfold abstractSessionInit
        rw [if_neg (by simp), if_pos rfl]
      · unfold formatStr
        rw [if_pos rfl]
    · refine ⟨⟨secure, timeout, url, JSON_FORMAT⟩, ?_, ?_⟩
      · unfold abstractSessionInit
        rw [if_neg (by simp), if_neg (by decide)]
      · unfold formatStr
        rw [if_neg (by simp [XML_FORMAT, JSON_FORMAT])]

/-- C8 witness: an unsupported format fails and the xml format succeeds
with an echoing formatStr. -/
theorem c8_witness :
    abstractSessionInit [] false 90 "yaml".toList = .error .notImplementedError ∧
    (∃ s, abstractSessionInit [] false 90 "xml".toList = .ok s ∧
      formatStr s = "xml".toList) :=
  ⟨(c8_requestFormat [] false 90 "yaml".toList).1 (by decide) (by decide),
   (c8_requestFormat [] false 90 "xml".toList).2 (Or.inl rfl)⟩

/-! ## Claim C9 -/

/-- C9: the command runner returns the captured standard output exactly
when the exit status is zero, and otherwise raises CalledProcessError
carrying the exit code, the space-joined command and the captured output;
an error is raised if and only if the exit status is non-zero. -/
theorem c9_runCmd (cmd : List (List Char)) (proc : ProcResult) :
    (proc.returncode = 0 → runCmd cmd proc = .ok proc.stdout) ∧
    (proc.returncode ≠ 0 → runCmd cmd proc =
      .error ⟨proc.returncode, List.intercalate " ".toList cmd, proc.stdout⟩) ∧
    ((∃ e, runCmd cmd proc = .error e) ↔ proc.returncode ≠ 0) := by
  by_cases h : proc.returncode = 0
  · refine ⟨fun _ => by simp [runCmd, h], fun hc => absurd h hc, ?_⟩
    simp [runCmd, h]
  · refine ⟨fun hc => absurd hc h, fun _ => by simp [runCmd, h], ?_⟩
    simp [runCmd, h]

/-- C9 witness: a failing command with exit status one raises the error
carrying code, joined command and captured output. -/
theorem c9_witness :
    ((⟨1, "o".toList, []⟩ : ProcResult).returncode ≠ 0) ∧
    runCmd ["ls".toList] ⟨1, "o".toList, []⟩ = .error ⟨1, "ls".toList, "o".toList⟩ :=
  ⟨by decide, (c9_runCmd ["ls".toList] ⟨1, "o".toList, []⟩).2.1 (by decide)⟩

/-! ## Claim C10 -/

/-- C10: with no cookie and no challenge set, getHeaders returns exactly
the one-entry mapping whose Cookie value interpolates the null token as
the literal text None, with no APIC-challenge key. -/
theorem c10_getHeaders (st : LoginState) (h1 : st.cookie = none)
    (h2 : st.challenge = none) :
    loginGetHeaders st = [("Cookie".toList, "APIC-cookie=None".toList)] := by
  unfold loginGetHeaders
  rw [h1, h2]
  decide

/-- C10 witness: the freshly constructed session state has no cookie and
no challenge and its headers are the single literal Cookie entry. -/
theorem c10_witness :
    loginSessionInitState.cookie = none ∧ loginSessionInitState.challenge = none ∧
    loginGetHeaders loginSessionInitState =
      [("Cookie".toList, "APIC-cookie=None".toList)] :=
  ⟨rfl, rfl, c10_getHeaders loginSessionInitState rfl rfl⟩
